import Mathlib

/-!
Shallow embedding of the `wyd` task/time-tracking tool.

Time is modelled as `Int` (seconds since an arbitrary epoch, mirroring the
second-resolution `chrono::DateTime<Utc>` values the program persists), and
durations as `Nat` (mirroring the unsigned `std::time::Duration`).  Every
operation that reads the ambient clock (`Utc::now()`) takes the current
instant `now : Int` as an explicit argument; within one operation the source
may call `Utc::now()` several times a few microseconds apart, which we model
as a single instant.

The repository contains two iterations of the program: an older standalone
`main.rs` and the newer modular `job.rs` / `job_board.rs` /
`wyd_application.rs`.  Definitions below are taken from the newer iteration
unless their name says otherwise; the reminder loop of the older iteration
(`send_reminders`, with its `force` flag and 3-minute cooldown) is embedded
separately under the names `main_should_notify` / `remind_jobs` /
`remind_stacks` / `send_reminders`.
-/

/-- Modelled from the spec: the `WorkState` enum (`{Off, Working,
SlackingSince(timestamp)}`) is referenced by `wyd_application.rs`
(`crate::job_board::WorkState`, `self.job_board.work_state`) but its
declaration is not among the source files; the spec's data-model section
gives exactly these three variants. -/
inductive WorkState where
  | Off : WorkState
  | Working : WorkState
  | SlackingSince : Int → WorkState
deriving DecidableEq

/-- `Job` from `job.rs`.  The field is spelled `last_notifiaction` in
`job.rs` and `last_notification` at its use sites in `wyd_application.rs`;
we use the latter spelling. -/
structure Job where
  label : String
  begin_date : Int
  timebox : Option Nat
  last_notification : Option Int
deriving DecidableEq

/-- `SuspendedStack` from `job_board.rs` (field spelling as in the source). -/
structure SuspendedStack where
  data : List Job
  reason : String
  date_suspended : Int
  timer : Option Int
  last_notifiaction : Option Int
deriving DecidableEq

/-- `JobBoard` from `job_board.rs`.  The `work_state` field is used by
`wyd_application.rs` (`self.job_board.work_state`) but absent from the
`job_board.rs` iteration in the sources; modelled from the spec's data
model, which lists it as a `JobBoard` field. -/
structure JobBoard where
  active_stack : List Job
  suspended_stacks : List SuspendedStack
  work_state : WorkState
deriving DecidableEq

/-- `TimerState` from `wyd_application.rs`. -/
structure TimerState where
  needs_save : Bool
  send_alarm : Bool
deriving DecidableEq

/-- `Job::timebox_remaining` (`job.rs`): `None` when no timebox, otherwise
the remaining time, saturating at zero (`chrono::Duration::to_std` fails on
a negative duration and the source then substitutes a zero duration). -/
def Job.timebox_remaining (j : Job) (now : Int) : Option Nat :=
  match j.timebox with
  | some timebox => some (j.begin_date + (timebox : Int) - now).toNat
  | none => none

/-- `Job::timebox_expired` (`job.rs`): the remaining time is exactly zero. -/
def Job.timebox_expired (j : Job) (now : Int) : Bool :=
  decide (j.timebox_remaining now = some 0)

/-- `should_notify` from `wyd_application.rs`: a reminder is due when no
notification was ever sent, or more than 30 seconds have elapsed since the
last one. -/
def should_notify (last_notified : Option Int) (now : Int) : Bool :=
  match last_notified with
  | none => true
  | some date => decide (now - date > 30)

/-- The `timer_exhausted` test written inline in both reminder loops: the
stack has a timer and it is strictly in the past. -/
def timer_exhausted (s : SuspendedStack) (now : Int) : Bool :=
  match s.timer with
  | some timer => decide (timer < now)
  | none => false

/-- Auxiliary for `JobBoard::find_job`, carrying the running index. -/
def findJobFrom (predicate : String → Bool) (i : Nat) : List Job → Option (Nat × Job)
  | [] => none
  | j :: rest => if predicate j.label then some (i, j) else findJobFrom predicate (i + 1) rest

/-- `JobBoard::find_job` (`job_board.rs`): linear scan of `active_stack`
from index 0, returning the first job whose label matches. -/
def JobBoard.find_job (b : JobBoard) (predicate : String → Bool) : Option (Nat × Job) :=
  findJobFrom predicate 0 b.active_stack

/-- The sort key used by `JobBoard::sort_suspended_stacks`: the stack's
timer, with `now` substituted for an absent timer (`timer.unwrap_or(now)`). -/
def effectiveTimer (now : Int) (s : SuspendedStack) : Int :=
  s.timer.getD now

/-- The boolean comparison corresponding to `sort_by` with
`timer1.cmp(&timer2)`. -/
def timerLe (now : Int) (s1 s2 : SuspendedStack) : Bool :=
  decide (effectiveTimer now s1 ≤ effectiveTimer now s2)

/-- `JobBoard::sort_suspended_stacks` (`job_board.rs`): stable sort of the
suspended stacks by effective timer ascending (Rust's `Vec::sort_by` is a
stable sort; `List.mergeSort` is the stable sort of the Lean library). -/
def JobBoard.sort_suspended_stacks (now : Int) (b : JobBoard) : JobBoard :=
  { b with suspended_stacks := b.suspended_stacks.mergeSort (timerLe now) }

/-- `JobBoard::add_suspended_stack` (`job_board.rs`): push, then re-sort. -/
def JobBoard.add_suspended_stack (now : Int) (stack : SuspendedStack) (b : JobBoard) : JobBoard :=
  JobBoard.sort_suspended_stacks now { b with suspended_stacks := b.suspended_stacks ++ [stack] }

/-- `JobBoard::suspend_at` (`job_board.rs`): fail when `index` is not a
valid position of `active_stack` (the source's early `return Err(())`
happens before any mutation, so failure is modelled as `none` with the
board untouched); otherwise split off the jobs from `index` to the end into
a fresh `SuspendedStack` and insert it sorted. -/
def JobBoard.suspend_at (now : Int) (index : Nat) (reason : String) (timer : Option Int)
    (b : JobBoard) : Option JobBoard :=
  if index ≥ b.active_stack.length then
    none
  else
    let jobs_to_suspend := b.active_stack.drop index
    let suspended_stack : SuspendedStack :=
      { data := jobs_to_suspend, reason := reason, date_suspended := now
        timer := timer, last_notifiaction := none }
    some (JobBoard.add_suspended_stack now suspended_stack
      { b with active_stack := b.active_stack.take index })

/-- `JobBoard::suspend_matching` (`job_board.rs`): find the first matching
active job, then suspend from its index; fail when nothing matches. -/
def JobBoard.suspend_matching (now : Int) (pattern : String → Bool) (reason : String)
    (timer : Option Int) (b : JobBoard) : Option JobBoard :=
  match b.find_job pattern with
  | some (i, _) => JobBoard.suspend_at now i reason timer b
  | none => none

/-- `JobBoard::resume_at_index` (`job_board.rs`): fail on an out-of-range
index; otherwise remove the suspended stack, reset every job's
`begin_date` to `now`, and append the jobs (order preserved) to
`active_stack`. -/
def JobBoard.resume_at_index (now : Int) (index : Nat) (b : JobBoard) : Option JobBoard :=
  if h : index < b.suspended_stacks.length then
    let suspended_stack := b.suspended_stacks.get ⟨index, h⟩
    some { b with
      active_stack :=
        b.active_stack ++ suspended_stack.data.map (fun j => { j with begin_date := now })
      suspended_stacks := b.suspended_stacks.eraseIdx index }
  else
    none

/-- `JobBoard::resume_matching` (`job_board.rs`): the first suspended stack
whose first job's label matches; when none matches, `found_index` stays at
`suspended_stacks.len()` and `resume_at_index` fails.  The source indexes
`stack.data[0]`, which would panic on an empty `data`; such stacks never
arise (see the non-emptiness invariant), and the model treats them as not
matching. -/
def JobBoard.resume_matching (now : Int) (pattern : String → Bool) (b : JobBoard) :
    Option JobBoard :=
  let found_index :=
    (b.suspended_stacks.findIdx? (fun stack =>
      match stack.data with
      | [] => false
      | j :: _ => pattern j.label)).getD b.suspended_stacks.length
  JobBoard.resume_at_index now found_index b

/-- `JobBoard::push` (`job_board.rs`): append to the top of `active_stack`. -/
def JobBoard.push (j : Job) (b : JobBoard) : JobBoard :=
  { b with active_stack := b.active_stack ++ [j] }

/-- `JobBoard::pop` (`job_board.rs`): remove and return the top of
`active_stack` (`none` when empty). -/
def JobBoard.pop (b : JobBoard) : Option Job × JobBoard :=
  (b.active_stack.getLast?, { b with active_stack := b.active_stack.dropLast })

/-- `JobBoard::suspended_tasks_ready` (`job_board.rs`): looks at the LAST
element of `suspended_stacks` (`self.suspended_stacks.last()`); ready when
it exists and its timer is absent or strictly before `now`. -/
def JobBoard.suspended_tasks_ready (now : Int) (b : JobBoard) : Bool :=
  match b.suspended_stacks.getLast? with
  | some task =>
    match task.timer with
    | some timer => decide (timer < now)
    | none => true
  | none => false

/-- One suspended stack's lines in `JobBoard::suspended_stack_summary`
(`job_board.rs`); `fmtTime` stands for the `chrono` local-time formatting
(`"%a %F %r"`), an I/O-boundary concern. -/
def stackSummary (fmtTime : Int → String) (s : SuspendedStack) : String :=
  match s.data with
  | [] => ""
  | first :: rest =>
    let firstLine :=
      match s.timer with
      | some timer => fmtTime timer ++ ":  " ++ first.label ++ "\n"
      | none => first.label ++ " (suspended at " ++ fmtTime s.date_suspended ++ ")" ++ "\n"
    firstLine ++ String.join (rest.map (fun j => "    " ++ j.label ++ "\n"))

/-- `JobBoard::suspended_stack_summary` (`job_board.rs`). -/
def JobBoard.suspended_stack_summary (fmtTime : Int → String) (b : JobBoard) : String :=
  String.join (b.suspended_stacks.map (stackSummary fmtTime))

/-- The resume-instructing message of `JobBoard::empty_stack_message`. -/
def resumeMessage : String :=
  "You finished your jobs in progress. Yay! Use `wyd resume` to resume the topmost suspended task:\n"

/-- The generic no-jobs message of `JobBoard::empty_stack_message`. -/
def noJobsMessage : String :=
  "No jobs in progress, and no suspended tasks! Use `wyd push [some arbitrary label]` to start a new task."

/-- `JobBoard::empty_stack_message` (`job_board.rs`). -/
def JobBoard.empty_stack_message (fmtTime : Int → String) (now : Int) (b : JobBoard) : String :=
  if b.suspended_tasks_ready now then
    resumeMessage ++ b.suspended_stack_summary fmtTime
  else
    noJobsMessage

/-- The `Default` board: empty stacks; the spec's load scenario fixes
`work_state = Off` (the `Default` of `WorkState` is not among the source
files — modelled from the spec). -/
def JobBoard.defaultBoard : JobBoard :=
  { active_stack := [], suspended_stacks := [], work_state := WorkState.Off }

/-- `JobBoard::load` (`job_board.rs`) as a function of the state-file
contents.  The source first opens the file with `create(true)`, so a
missing file becomes an existing empty one and is read back as `""`;
empty contents give the default board, and non-empty contents that the RON
deserializer (modelled by the `parsed` argument) rejects are a fatal error
(`expect`, modelled as `Except.error`) rather than a silent reset. -/
def JobBoard.load (contents : String) (parsed : String → Option JobBoard) :
    Except String JobBoard :=
  if contents = "" then
    Except.ok JobBoard.defaultBoard
  else
    match parsed contents with
    | some board => Except.ok board
    | none => Except.error "Stack file is malformed."

/-- The active-job loop of `WydApplication::update_timers`
(`wyd_application.rs`): scan `active_stack` front-to-back (bottom-to-top)
and stamp `last_notification = now` on the first job that has an expired
timebox AND is due a notification (the source `continue`s past jobs failing
either test), returning its index and the updated list; `none` when no job
qualifies. -/
def stampFirstActive (now : Int) : List Job → Option (Nat × List Job)
  | [] => none
  | j :: rest =>
    if j.timebox_expired now && should_notify j.last_notification now then
      some (0, { j with last_notification := some now } :: rest)
    else
      match stampFirstActive now rest with
      | some (i, rest') => some (i + 1, j :: rest')
      | none => none

/-- The suspended-stack loop of `WydApplication::update_timers`: stamp the
first stack whose timer is exhausted and which is due a notification. -/
def stampFirstSuspended (now : Int) : List SuspendedStack → Option (List SuspendedStack)
  | [] => none
  | s :: rest =>
    if timer_exhausted s now && should_notify s.last_notifiaction now then
      some ({ s with last_notifiaction := some now } :: rest)
    else
      (stampFirstSuspended now rest).map (fun rest' => s :: rest')

/-- `WydApplication::update_timers` (`wyd_application.rs`): the tick
evaluation.  Priority order: active-job timebox expiry, then suspended
stack timer expiry, then the slacking escalation driven by `work_state`. -/
def update_timers (now : Int) (b : JobBoard) : JobBoard × TimerState :=
  match stampFirstActive now b.active_stack with
  | some (_, active') =>
    ({ b with active_stack := active' }, { needs_save := true, send_alarm := true })
  | none =>
  match stampFirstSuspended now b.suspended_stacks with
  | some suspended' =>
    ({ b with suspended_stacks := suspended' }, { needs_save := true, send_alarm := true })
  | none =>
  let slack_date : Option Int :=
    match b.work_state with
    | WorkState.Off => none
    | WorkState.Working => some now
    | WorkState.SlackingSince date => some date
  match slack_date with
  | some slack_date =>
    let is_slacking := b.active_stack.all (fun j => j.timebox.isNone)
    let send_alarm := is_slacking && decide (now - slack_date > 5 * 60)
    let new_work_state : WorkState :=
      if is_slacking then
        if now - slack_date > 5 * 60 then WorkState.SlackingSince now
        else WorkState.SlackingSince slack_date
      else
        WorkState.Working
    ({ b with work_state := new_work_state },
      { needs_save := decide (new_work_state ≠ b.work_state), send_alarm := send_alarm })
  | none => (b, { needs_save := false, send_alarm := false })

/-- `MIN_NOTIFICATION_DELAY_SECONDS` from `main.rs`. -/
def MIN_NOTIFICATION_DELAY_SECONDS : Int := 60 * 3

/-- `should_notify` from the older `main.rs` iteration: 3-minute cooldown. -/
def main_should_notify (last_notified : Option Int) (now : Int) : Bool :=
  match last_notified with
  | some date => decide (now - date > MIN_NOTIFICATION_DELAY_SECONDS)
  | none => true

/-- The active-job loop of `WydApplication::send_reminders` (`main.rs`):
unlike `update_timers`, it does NOT stop at the first hit — every job with
an expired timebox whose cooldown permits (or that is forced) is notified
and stamped.  Returns the updated list and the labels notified, in scan
order. -/
def remind_jobs (now : Int) (force : Bool) : List Job → List Job × List String
  | [] => ([], [])
  | j :: rest =>
    let step := remind_jobs now force rest
    if j.timebox_expired now && (force || main_should_notify j.last_notification now) then
      ({ j with last_notification := some now } :: step.1, j.label :: step.2)
    else
      (j :: step.1, step.2)

/-- The label shown for a suspended stack's notification in `main.rs`
(`stack.data.first()`, with the source's fallback text for an empty stack;
the formatted start time the `Display` impl appends is an I/O-boundary
concern and not modelled). -/
def first_job_string (s : SuspendedStack) : String :=
  match s.data with
  | j :: _ => j.label
  | [] => "[[Empty Job Stack D:]]"

/-- The suspended-stack loop of `WydApplication::send_reminders`
(`main.rs`): every stack with an exhausted timer whose cooldown permits (or
that is forced) is notified and stamped. -/
def remind_stacks (now : Int) (force : Bool) : List SuspendedStack → List SuspendedStack × List String
  | [] => ([], [])
  | s :: rest =>
    let step := remind_stacks now force rest
    if timer_exhausted s now && (force || main_should_notify s.last_notifiaction now) then
      ({ s with last_notifiaction := some now } :: step.1, first_job_string s :: step.2)
    else
      (s :: step.1, step.2)

/-- `WydApplication::send_reminders` (`main.rs`): process all active jobs,
then all suspended stacks (`main.rs`'s `JobBoard` lacks `work_state`, which
this function never touches). -/
def send_reminders (now : Int) (force : Bool) (b : JobBoard) : JobBoard × List String :=
  let jobsStep := remind_jobs now force b.active_stack
  let stacksStep := remind_stacks now force b.suspended_stacks
  ({ b with active_stack := jobsStep.1, suspended_stacks := stacksStep.1 },
    jobsStep.2 ++ stacksStep.2)

/-- The refusal message `WydApplication::create_job` prints when the
current job is timeboxed (`eprintln!`, with the source's `\` line
continuations joined). -/
def createJobRefusal : String :=
  "Current job has a timebox. Finish the task or remove the timebox before Creating a sub task."

/-- `WydApplication::create_job` (`wyd_application.rs`): compute
`begin_date` (shifted back by `retro` when given); if the top active job
has a timebox, print the refusal and return with the board untouched (the
source returns `Ok(())` without pushing or saving); otherwise push the new
job.  The returned string is the refusal message when one was printed. -/
def create_job (now : Int) (label : String) (timebox : Option Nat) (retro : Option Nat)
    (b : JobBoard) : JobBoard × Option String :=
  let begin_date : Int :=
    match retro with
    | some retro => now - (retro : Int)
    | none => now
  if (b.active_stack.getLast?.bind (fun j => j.timebox)).isSome then
    (b, some createJobRefusal)
  else
    (JobBoard.push
      { label := label, begin_date := begin_date, timebox := timebox, last_notification := none }
      b, none)

/-- Written from the spec's words for claim C2 (refinement comparison, not
from the source): the topmost-priority suspended stack under the timer
sort — the FIRST of the sorted `suspended_stacks` — is ready, meaning its
timer is absent or `≤ now`. -/
def specTopmostReady (now : Int) (b : JobBoard) : Bool :=
  match b.suspended_stacks.head? with
  | some task =>
    match task.timer with
    | some timer => decide (timer ≤ now)
    | none => true
  | none => false

/-! Helper lemmas. -/

theorem timerLe_trans (t : Int) (a b c : SuspendedStack) (hab : timerLe t a b = true)
    (hbc : timerLe t b c = true) : timerLe t a c = true := by
  simp only [timerLe, decide_eq_true_eq] at *
  omega

theorem timerLe_total (t : Int) (a b : SuspendedStack) :
    (timerLe t a b || timerLe t b a) = true := by
  simp only [timerLe, Bool.or_eq_true, decide_eq_true_eq]
  omega

/-- The sorted-list invariant for `suspended_stacks` at instant `t`. -/
def SortedStacks (t : Int) (l : List SuspendedStack) : Prop :=
  List.Pairwise (fun s1 s2 => effectiveTimer t s1 ≤ effectiveTimer t s2) l

/-- The `JobBoard` invariants: `suspended_stacks` sorted by effective timer
ascending, and every suspended stack non-empty. -/
def BoardInv (t : Int) (b : JobBoard) : Prop :=
  SortedStacks t b.suspended_stacks ∧ ∀ s ∈ b.suspended_stacks, s.data ≠ []

theorem sortedStacks_mergeSort (t : Int) (l : List SuspendedStack) :
    SortedStacks t (l.mergeSort (timerLe t)) := by
  have h := @List.sorted_mergeSort SuspendedStack (timerLe t)
    (fun a b c => timerLe_trans t a b c) (fun a b => timerLe_total t a b) l
  exact h.imp (fun hab => by simpa [timerLe, decide_eq_true_eq] using hab)

theorem mergeSort_eq_of_sortedStacks (t : Int) (l : List SuspendedStack)
    (h : SortedStacks t l) : l.mergeSort (timerLe t) = l :=
  List.mergeSort_of_sorted (h.imp (fun hab => by simpa [timerLe, decide_eq_true_eq] using hab))

theorem mem_mergeSort_stacks (t : Int) (l : List SuspendedStack) (s : SuspendedStack) :
    s ∈ l.mergeSort (timerLe t) ↔ s ∈ l :=
  (List.mergeSort_perm l (timerLe t)).mem_iff

theorem resumeMessage_append_ne (s : String) : resumeMessage ++ s ≠ noJobsMessage := by
  intro h
  have h2 : (resumeMessage.data ++ s.data).take 1 = noJobsMessage.data.take 1 := by
    rw [← String.data_append, h]
  rw [List.take_append_of_le_length (by decide)] at h2
  revert h2
  decide

/-! Claim theorems. -/

/-- C5: `sort_suspended_stacks` is idempotent — sorting twice (at one
instant) yields the same board as sorting once. -/
theorem C5_sort_suspended_stacks_idempotent (now : Int) (b : JobBoard) :
    JobBoard.sort_suspended_stacks now (JobBoard.sort_suspended_stacks now b) =
      JobBoard.sort_suspended_stacks now b := by
  unfold JobBoard.sort_suspended_stacks
  rw [mergeSort_eq_of_sortedStacks now _ (sortedStacks_mergeSort now _)]

/-- C6: a job with no timebox is never expired; a job with a timebox is
expired exactly from `begin_date + timebox` on, and expiry is monotone in
time. -/
theorem C6_timebox_expired_exact_and_monotone (j : Job) (now later : Int) :
    (j.timebox = none → j.timebox_expired now = false) ∧
    (∀ tb : Nat, j.timebox = some tb →
      (j.timebox_expired now = true ↔ j.begin_date + (tb : Int) ≤ now)) ∧
    (now ≤ later → j.timebox_expired now = true → j.timebox_expired later = true) := by
  refine ⟨fun h => ?_, fun tb h => ?_, fun hle h => ?_⟩
  · simp [Job.timebox_expired, Job.timebox_remaining, h]
  · simp only [Job.timebox_expired, Job.timebox_remaining, h, decide_eq_true_eq,
      Option.some.injEq, Int.toNat_eq_zero]
    omega
  · match htb : j.timebox with
    | none => simp [Job.timebox_expired, Job.timebox_remaining, htb] at h
    | some tb =>
      simp only [Job.timebox_expired, Job.timebox_remaining, htb, decide_eq_true_eq,
        Option.some.injEq, Int.toNat_eq_zero] at h ⊢
      omega

/-- Witness for C6 at concrete jobs: an untimed job is unexpired, a job
with timebox 3 begun at 0 is expired at 3, and stays expired at 10. -/
theorem C6_witness :
    (Job.mk "untimed" 0 none none).timebox_expired 100 = false ∧
    ((Job.mk "boxed" 0 (some 3) none).timebox_expired 3 = true ↔ (0 : Int) + ((3 : Nat) : Int) ≤ 3) ∧
    (Job.mk "boxed" 0 (some 3) none).timebox_expired 10 = true := by
  refine ⟨(C6_timebox_expired_exact_and_monotone (Job.mk "untimed" 0 none none) 100 100).1 rfl,
    (C6_timebox_expired_exact_and_monotone (Job.mk "boxed" 0 (some 3) none) 3 3).2.1 3 rfl,
    (C6_timebox_expired_exact_and_monotone (Job.mk "boxed" 0 (some 3) none) 3 10).2.2
      (by decide) (by decide)⟩

/-- C7: `suspend_at` fails exactly on out-of-range indices (with the board
untouched — the model returns no board at all), and on a valid index moves
the jobs from `index` to the end into a new suspended stack. -/
theorem C7_suspend_at_range (now : Int) (index : Nat) (reason : String) (timer : Option Int)
    (b : JobBoard) :
    (index ≥ b.active_stack.length → JobBoard.suspend_at now index reason timer b = none) ∧
    (index < b.active_stack.length →
      ∃ b', JobBoard.suspend_at now index reason timer b = some b' ∧
        b'.active_stack = b.active_stack.take index ∧
        b'.suspended_stacks.Perm
          (SuspendedStack.mk (b.active_stack.drop index) reason now timer none ::
            b.suspended_stacks) ∧
        b.active_stack.drop index ≠ []) := by
  constructor
  · intro h
    simp [JobBoard.suspend_at, h]
  · intro h
    refine ⟨JobBoard.add_suspended_stack now
        (SuspendedStack.mk (b.active_stack.drop index) reason now timer none)
        { b with active_stack := b.active_stack.take index },
      by simp [JobBoard.suspend_at, Nat.not_le.mpr h], rfl, ?_, ?_⟩
    · refine (List.mergeSort_perm _ _).trans ?_
      exact List.perm_append_comm
    · intro hnil
      have := congrArg List.length hnil
      simp at this
      omega

/-- Witness for C7: on a one-job board, index 1 fails and index 0 moves the
single job out. -/
theorem C7_witness :
    (JobBoard.suspend_at 0 1 "r" none
        (JobBoard.mk [Job.mk "a" 0 none none] [] WorkState.Off) = none) ∧
    (∃ b', JobBoard.suspend_at 0 0 "r" none
        (JobBoard.mk [Job.mk "a" 0 none none] [] WorkState.Off) = some b' ∧
      b'.active_stack = (JobBoard.mk [Job.mk "a" 0 none none] [] WorkState.Off).active_stack.take 0 ∧
      b'.suspended_stacks.Perm
        (SuspendedStack.mk ((JobBoard.mk [Job.mk "a" 0 none none] [] WorkState.Off).active_stack.drop 0)
          "r" 0 none none :: []) ∧
      (JobBoard.mk [Job.mk "a" 0 none none] [] WorkState.Off).active_stack.drop 0 ≠ []) := by
  exact ⟨(C7_suspend_at_range 0 1 "r" none (JobBoard.mk [Job.mk "a" 0 none none] [] WorkState.Off)).1
      (by decide),
    (C7_suspend_at_range 0 0 "r" none (JobBoard.mk [Job.mk "a" 0 none none] [] WorkState.Off)).2
      (by decide)⟩

/-- C9: empty (or freshly created, i.e. previously missing) state contents
load as the default board — empty stacks, `work_state = Off` — while
non-empty contents the deserializer rejects are a fatal error, never a
silent reset.  The deserializer is the `parsed` argument. -/
theorem C9_load_default_or_fatal (parsed : String → Option JobBoard) (s : String)
    (hs : s ≠ "") (hbad : parsed s = none) :
    JobBoard.load "" parsed = Except.ok JobBoard.defaultBoard ∧
    JobBoard.defaultBoard.active_stack = [] ∧
    JobBoard.defaultBoard.suspended_stacks = [] ∧
    JobBoard.defaultBoard.work_state = WorkState.Off ∧
    JobBoard.load s parsed = Except.error "Stack file is malformed." := by
  refine ⟨by simp [JobBoard.load], rfl, rfl, rfl, ?_⟩
  simp [JobBoard.load, hs, hbad]

/-- Witness for C9 with a deserializer that rejects everything and the
contents "garbage". -/
theorem C9_witness :
    JobBoard.load "" (fun _ => none) = Except.ok JobBoard.defaultBoard ∧
    JobBoard.load "garbage" (fun _ => none) = Except.error "Stack file is malformed." := by
  have h := C9_load_default_or_fatal (fun _ => none) "garbage" (by decide) rfl
  exact ⟨h.1, h.2.2.2.2⟩

/-- C10: when the top active job has a timebox, `create_job` pushes
nothing: the board (active and suspended stacks alike) is returned
unchanged together with the printed refusal. -/
theorem C10_create_job_refuses_subtasks (now : Int) (label : String)
    (timebox retro : Option Nat) (b : JobBoard) (j : Job) (tb : Nat)
    (hLast : b.active_stack.getLast? = some j) (hTb : j.timebox = some tb) :
    create_job now label timebox retro b = (b, some createJobRefusal) := by
  simp [create_job, hLast, hTb]

/-- Witness for C10: a board whose single active job has timebox 5. -/
theorem C10_witness :
    create_job 7 "sub" none none
        (JobBoard.mk [Job.mk "top" 0 (some 5) none] [] WorkState.Off) =
      (JobBoard.mk [Job.mk "top" 0 (some 5) none] [] WorkState.Off, some createJobRefusal) :=
  C10_create_job_refuses_subtasks 7 "sub" none none
    (JobBoard.mk [Job.mk "top" 0 (some 5) none] [] WorkState.Off)
    (Job.mk "top" 0 (some 5) none) 5 rfl rfl

theorem suspended_tasks_ready_iff (now : Int) (b : JobBoard) :
    b.suspended_tasks_ready now = true ↔
      ∃ s, b.suspended_stacks.getLast? = some s ∧
        (s.timer = none ∨ ∃ t, s.timer = some t ∧ t < now) := by
  cases h : b.suspended_stacks.getLast? with
  | none => simp [JobBoard.suspended_tasks_ready, h]
  | some task =>
    cases ht : task.timer with
    | none => simp [JobBoard.suspended_tasks_ready, h, ht]
    | some timer => simp [JobBoard.suspended_tasks_ready, h, ht]

/-- The board of the C2 counterexample: active stack empty, two suspended
stacks already sorted by effective timer (0, then 10). -/
def c2Board : JobBoard :=
  JobBoard.mk []
    [SuspendedStack.mk [Job.mk "ready" 0 none none] "r1" 0 (some 0) none,
     SuspendedStack.mk [Job.mk "waiting" 0 none none] "r2" 0 (some 10) none]
    WorkState.Off

/-- C2 is false on the code: at `now = 5` the topmost-priority suspended
stack of `c2Board` (timer 0 ≤ 5) is ready in the spec's sense, yet
`empty_stack_message` returns the generic no-jobs message, because
`suspended_tasks_ready` inspects the LAST stack (timer 10, and `10 < 5`
fails). -/
theorem C2_counterexample :
    c2Board.active_stack = [] ∧
    SortedStacks 5 c2Board.suspended_stacks ∧
    specTopmostReady 5 c2Board = true ∧
    JobBoard.empty_stack_message (fun _ => "") 5 c2Board = noJobsMessage ∧
    noJobsMessage ≠ resumeMessage ++ c2Board.suspended_stack_summary (fun _ => "") := by
  refine ⟨rfl, ?_, rfl, rfl, fun h => resumeMessage_append_ne _ h.symm⟩
  simp only [SortedStacks, c2Board]
  decide

/-- C2 (amended): with an empty active stack, `empty_stack_message`
returns the resume-instructing message followed by the suspended-stack
summary iff the LAST suspended stack in the current order (under the timer
sort, the bottom-priority one with the greatest effective timer) exists
and its timer is absent or STRICTLY earlier than `now`; otherwise it
returns the generic no-jobs message. -/
theorem C2_empty_stack_message_last_ready (fmtTime : Int → String) (now : Int) (b : JobBoard)
    (hActive : b.active_stack = []) :
    (JobBoard.empty_stack_message fmtTime now b =
        resumeMessage ++ b.suspended_stack_summary fmtTime ↔
      ∃ s, b.suspended_stacks.getLast? = some s ∧
        (s.timer = none ∨ ∃ t, s.timer = some t ∧ t < now)) ∧
    (JobBoard.empty_stack_message fmtTime now b = noJobsMessage ↔
      ¬ ∃ s, b.suspended_stacks.getLast? = some s ∧
        (s.timer = none ∨ ∃ t, s.timer = some t ∧ t < now)) := by
  by_cases hr : b.suspended_tasks_ready now = true
  · rw [JobBoard.empty_stack_message, if_pos hr]
    constructor
    · exact ⟨fun _ => (suspended_tasks_ready_iff now b).mp hr, fun _ => rfl⟩
    · constructor
      · intro h
        exact absurd h (resumeMessage_append_ne _)
      · intro h
        exact absurd ((suspended_tasks_ready_iff now b).mp hr) h
  · rw [JobBoard.empty_stack_message, if_neg hr]
    constructor
    · constructor
      · intro h
        exact absurd h.symm (resumeMessage_append_ne _)
      · intro h
        exact absurd ((suspended_tasks_ready_iff now b).mpr h) hr
    · refine ⟨fun _ h => ?_, fun _ => rfl⟩
      exact hr ((suspended_tasks_ready_iff now b).mpr h)

/-- A board whose single suspended stack is ready in the code's sense
(timer 0, strictly before now = 5), used as the C2 witness input. -/
def c2ReadyBoard : JobBoard :=
  JobBoard.mk [] [SuspendedStack.mk [Job.mk "ready" 0 none none] "r1" 0 (some 0) none]
    WorkState.Off

/-- Witness for the amended C2 at `c2ReadyBoard` and `now = 5`. -/
theorem C2_witness :
    JobBoard.empty_stack_message (fun _ => "") 5 c2ReadyBoard =
      resumeMessage ++ c2ReadyBoard.suspended_stack_summary (fun _ => "") :=
  ((C2_empty_stack_message_last_ready (fun _ => "") 5 c2ReadyBoard rfl).1).mpr
    ⟨SuspendedStack.mk [Job.mk "ready" 0 none none] "r1" 0 (some 0) none, rfl,
      Or.inr ⟨0, rfl, by decide⟩⟩

theorem stampFirstActive_append (now : Int) (pre post : List Job) (j : Job)
    (hpre : ∀ j' ∈ pre, (j'.timebox_expired now && should_notify j'.last_notification now) = false)
    (hj : (j.timebox_expired now && should_notify j.last_notification now) = true) :
    stampFirstActive now (pre ++ j :: post) =
      some (pre.length, pre ++ { j with last_notification := some now } :: post) := by
  induction pre with
  | nil => simp [stampFirstActive, hj]
  | cons a rest ih =>
    have ha := hpre a (List.mem_cons_self a rest)
    have hrest := ih (fun j' hj' => hpre j' (List.mem_cons_of_mem a hj'))
    simp [stampFirstActive, ha, hrest]

/-- C1: the tick evaluation fires at most one alarm and respects the
priority order.  First part: when the active stack is `pre ++ j :: post`
with no job of `pre` both expired and due, and `j` expired and due, the
tick stamps exactly `j` with `last_notification = now`, leaves everything
else (including all suspended stacks and `work_state`) untouched, and
returns `{send_alarm := true, needs_save := true}`.  Second part: the
suspended-stack scan is consulted only when the active scan fired
nothing. -/
theorem C1_update_timers_priority (now : Int) (b : JobBoard) :
    (∀ pre j post,
      b.active_stack = pre ++ j :: post →
      (∀ j' ∈ pre,
        ¬(j'.timebox_expired now = true ∧ should_notify j'.last_notification now = true)) →
      j.timebox_expired now = true →
      should_notify j.last_notification now = true →
      update_timers now b =
        ({ b with active_stack := pre ++ { j with last_notification := some now } :: post },
          TimerState.mk true true)) ∧
    (∀ suspended',
      stampFirstActive now b.active_stack = none →
      stampFirstSuspended now b.suspended_stacks = some suspended' →
      update_timers now b =
        ({ b with suspended_stacks := suspended' }, TimerState.mk true true)) := by
  constructor
  · intro pre j post hstack hpre hj hn
    have hpre' : ∀ j' ∈ pre,
        (j'.timebox_expired now && should_notify j'.last_notification now) = false := by
      intro j' hj'
      have := hpre j' hj'
      cases h1 : j'.timebox_expired now <;> cases h2 : should_notify j'.last_notification now <;>
        simp_all
    have hcond : (j.timebox_expired now && should_notify j.last_notification now) = true := by
      rw [hj, hn]; rfl
    unfold update_timers
    rw [hstack, stampFirstActive_append now pre post j hpre' hcond]
  · intro suspended' hactive hsus
    unfold update_timers
    rw [hactive, hsus]

/-- Witness for C1: a two-job board whose bottom job is untimed and whose
top job's one-second timebox expired at `now = 5`. -/
theorem C1_witness :
    update_timers 5
        (JobBoard.mk [Job.mk "a" 0 none none, Job.mk "b" 0 (some 1) none] [] WorkState.Off) =
      (JobBoard.mk [Job.mk "a" 0 none none, Job.mk "b" 0 (some 1) (some 5)] [] WorkState.Off,
        TimerState.mk true true) := by
  have h := (C1_update_timers_priority 5
      (JobBoard.mk [Job.mk "a" 0 none none, Job.mk "b" 0 (some 1) none] [] WorkState.Off)).1
    [Job.mk "a" 0 none none] (Job.mk "b" 0 (some 1) none) []
    rfl (by decide) (by decide) (by decide)
  simpa using h

theorem stampFirstActive_spec (now : Int) (l : List Job) (i : Nat) (l' : List Job)
    (h : stampFirstActive now l = some (i, l')) :
    ∃ j, l[i]? = some j ∧
      (j.timebox_expired now && should_notify j.last_notification now) = true ∧
      l' = l.set i { j with last_notification := some now } := by
  induction l generalizing i l' with
  | nil => simp [stampFirstActive] at h
  | cons a rest ih =>
    by_cases hc : (a.timebox_expired now && should_notify a.last_notification now) = true
    · rw [stampFirstActive, if_pos hc] at h
      obtain ⟨hi, hl⟩ := Prod.mk.injEq .. ▸ Option.some.inj h
      exact ⟨a, by rw [← hi]; simp, hc, by rw [← hl, ← hi]; rfl⟩
    · rw [stampFirstActive, if_neg hc] at h
      cases hrec : stampFirstActive now rest with
      | none => rw [hrec] at h; exact absurd h (by simp)
      | some p =>
        obtain ⟨i', rest'⟩ := p
        rw [hrec] at h
        obtain ⟨hi, hl⟩ := Prod.mk.injEq .. ▸ Option.some.inj h
        obtain ⟨j, hget, hcond, hset⟩ := ih i' rest' hrec
        refine ⟨j, ?_, hcond, ?_⟩
        · rw [← hi]
          simpa using hget
        · rw [← hl, ← hi, hset]
          rfl

/-- C3: notification de-duplication and the `force` flag.
Part 1: `should_notify` (the tick evaluation's cooldown test,
`wyd_application.rs`) refuses while a prior stamp is at most 30 seconds
old.  Part 2: if a tick's active scan fires at index `i` (stamping that
job), an immediately following scan — any second tick at most 30 seconds
later — cannot fire at the same job again.  Parts 3 and 4: the older
iteration's `send_reminders` loops (`main.rs`) with `force = true` notify
and stamp exactly the jobs with expired timeboxes and exactly the
suspended stacks with exhausted timers, regardless of any
`last_notification` cooldown state. -/
theorem C3_dedup_and_force :
    (∀ prev now : Int, now - prev ≤ 30 → should_notify (some prev) now = false) ∧
    (∀ (now later : Int) (l l' l'' : List Job) (i k : Nat),
      stampFirstActive now l = some (i, l') → later - now ≤ 30 →
      stampFirstActive later l' = some (k, l'') → k ≠ i) ∧
    (∀ (now : Int) (l : List Job),
      remind_jobs now true l =
        (l.map (fun j =>
            if j.timebox_expired now then { j with last_notification := some now } else j),
          (l.filter (fun j => j.timebox_expired now)).map Job.label)) ∧
    (∀ (now : Int) (l : List SuspendedStack),
      remind_stacks now true l =
        (l.map (fun s =>
            if timer_exhausted s now then { s with last_notifiaction := some now } else s),
          (l.filter (fun s => timer_exhausted s now)).map first_job_string)) := by
  refine ⟨?_, ?_, ?_, ?_⟩
  · intro prev now h
    simp only [should_notify, decide_eq_false_iff_not]
    omega
  · intro now later l l' l'' i k h1 hle h2 hki
    subst hki
    obtain ⟨j, hget, _, hset⟩ := stampFirstActive_spec now l k l' h1
    obtain ⟨j2, hget2, hcond2, _⟩ := stampFirstActive_spec later l' k l'' h2
    have hk : k < l.length := (List.getElem?_eq_some.mp hget).1
    have : l'[k]? = some { j with last_notification := some now } := by
      rw [hset]
      exact List.getElem?_set_self hk
    rw [this] at hget2
    obtain rfl := Option.some.inj hget2
    have : should_notify (some now) later = true := by
      cases hx : should_notify (some now) later
      · rw [hx] at hcond2
        simp at hcond2
      · rfl
    simp only [should_notify, decide_eq_true_eq] at this
    omega
  · intro now l
    induction l with
    | nil => rfl
    | cons j rest ih =>
      simp only [remind_jobs, ih, Bool.true_or, Bool.and_true, List.map_cons, List.filter_cons]
      by_cases hj : j.timebox_expired now = true
      · simp [hj]
      · simp_all
  · intro now l
    induction l with
    | nil => rfl
    | cons s rest ih =>
      simp only [remind_stacks, ih, Bool.true_or, Bool.and_true, List.map_cons, List.filter_cons]
      by_cases hs : timer_exhausted s now = true
      · simp [hs]
      · simp_all

/-- Witness for C3: part 1 at a 10-second gap; part 2 at a one-job list
whose job fires at `now = 100` and cannot re-fire at `later = 120`; parts
3 and 4 at singleton lists with stale stamps but `force = true`. -/
theorem C3_witness :
    should_notify (some 100) 110 = false ∧
    (∀ k l'',
      stampFirstActive 120 [Job.mk "b" 0 (some 1) (some 100)] = some (k, l'') → k ≠ 0) ∧
    remind_jobs 50 true [Job.mk "b" 0 (some 1) (some 49)] =
      ([Job.mk "b" 0 (some 1) (some 50)], ["b"]) ∧
    remind_stacks 50 true [SuspendedStack.mk [Job.mk "s" 0 none none] "r" 0 (some 1) (some 49)] =
      ([SuspendedStack.mk [Job.mk "s" 0 none none] "r" 0 (some 1) (some 50)], ["s"]) := by
  refine ⟨C3_dedup_and_force.1 100 110 (by decide), ?_, ?_, ?_⟩
  · intro k l'' h2
    exact C3_dedup_and_force.2.1 100 120 [Job.mk "b" 0 (some 1) none]
      [Job.mk "b" 0 (some 1) (some 100)] l'' 0 k (by decide) (by decide) h2
  · rw [C3_dedup_and_force.2.2.1 50 [Job.mk "b" 0 (some 1) (some 49)]]
    decide
  · rw [C3_dedup_and_force.2.2.2 50
      [SuspendedStack.mk [Job.mk "s" 0 none none] "r" 0 (some 1) (some 49)]]
    decide

/-- C4: the suspend-then-resume round trip.  Suspending the suffix of the
active stack from a valid index `i` at `t1` creates a suspended stack
holding exactly `active_stack.drop i`; resuming it (at whatever position
`k` the timer sort placed it) at `t2` puts exactly those jobs back on top
of the active stack, in their original relative order, each with
`begin_date` rewritten to `t2` (hence `≥ t2`). -/
theorem C4_suspend_resume_roundtrip (t1 t2 : Int) (i : Nat) (reason : String) (timer : Option Int)
    (b b1 : JobBoard) (hsusp : JobBoard.suspend_at t1 i reason timer b = some b1) :
    (∃ (k : Nat) (s : SuspendedStack),
      b1.suspended_stacks[k]? = some s ∧ s.data = b.active_stack.drop i) ∧
    (∀ (k : Nat) (s : SuspendedStack),
      b1.suspended_stacks[k]? = some s → s.data = b.active_stack.drop i →
      ∃ b2, JobBoard.resume_at_index t2 k b1 = some b2 ∧
        b2.active_stack =
          b.active_stack.take i ++
            (b.active_stack.drop i).map (fun j => { j with begin_date := t2 }) ∧
        b2.active_stack.drop i =
          (b.active_stack.drop i).map (fun j => { j with begin_date := t2 }) ∧
        ∀ j' ∈ b2.active_stack.drop i, j'.begin_date ≥ t2) := by
  have hlt : i < b.active_stack.length := by
    by_contra hge
    rw [JobBoard.suspend_at, if_pos (Nat.le_of_not_lt hge)] at hsusp
    exact absurd hsusp (by simp)
  have hsusp' : JobBoard.add_suspended_stack t1
      (SuspendedStack.mk (b.active_stack.drop i) reason t1 timer none)
      { b with active_stack := b.active_stack.take i } = b1 := by
    rw [JobBoard.suspend_at, if_neg (by omega)] at hsusp
    exact Option.some.inj hsusp
  subst hsusp'
  have hsusFld : (JobBoard.add_suspended_stack t1
      (SuspendedStack.mk (b.active_stack.drop i) reason t1 timer none)
      { b with active_stack := b.active_stack.take i }).suspended_stacks =
      (b.suspended_stacks ++
        [SuspendedStack.mk (b.active_stack.drop i) reason t1 timer none]).mergeSort
        (timerLe t1) := rfl
  have hactFld : (JobBoard.add_suspended_stack t1
      (SuspendedStack.mk (b.active_stack.drop i) reason t1 timer none)
      { b with active_stack := b.active_stack.take i }).active_stack =
      b.active_stack.take i := rfl
  have htakeLen : (b.active_stack.take i).length = i := by
    rw [List.length_take]
    omega
  constructor
  · have hmem : SuspendedStack.mk (b.active_stack.drop i) reason t1 timer none ∈
        (b.suspended_stacks ++
          [SuspendedStack.mk (b.active_stack.drop i) reason t1 timer none]).mergeSort
          (timerLe t1) := by
      rw [mem_mergeSort_stacks]
      exact List.mem_append.mpr (Or.inr (by simp))
    obtain ⟨k, hk⟩ := List.mem_iff_getElem?.mp hmem
    exact ⟨k, SuspendedStack.mk (b.active_stack.drop i) reason t1 timer none,
      by rw [hsusFld]; exact hk, rfl⟩
  · intro k s hget hdata
    obtain ⟨hk, hEq⟩ := List.getElem?_eq_some.mp hget
    refine ⟨JobBoard.mk
        (b.active_stack.take i ++
          (b.active_stack.drop i).map (fun j => { j with begin_date := t2 }))
        (((b.suspended_stacks ++
            [SuspendedStack.mk (b.active_stack.drop i) reason t1 timer none]).mergeSort
            (timerLe t1)).eraseIdx k)
        b.work_state, ?_, rfl, ?_, ?_⟩
    · rw [JobBoard.resume_at_index, dif_pos hk, List.get_eq_getElem, hEq]
      simp only [hdata]
      rfl
    · exact List.drop_left' htakeLen
    · intro j' hj'
      rw [List.drop_left' htakeLen] at hj'
      obtain ⟨x, _, rfl⟩ := List.mem_map.mp hj'
      exact le_refl t2

/-- Witness for C4: a one-job board suspended at index 0 and resumed. -/
theorem C4_witness :
    (∃ (k : Nat) (s : SuspendedStack),
      (JobBoard.mk [] [SuspendedStack.mk [Job.mk "a" 0 none none] "r" 3 none none]
          WorkState.Off).suspended_stacks[k]? = some s ∧
      s.data = (JobBoard.mk [Job.mk "a" 0 none none] [] WorkState.Off).active_stack.drop 0) ∧
    (∃ b2, JobBoard.resume_at_index 9 0
        (JobBoard.mk [] [SuspendedStack.mk [Job.mk "a" 0 none none] "r" 3 none none]
          WorkState.Off) = some b2 ∧
      b2.active_stack = [Job.mk "a" 9 none none]) := by
  have hb1 : JobBoard.suspend_at 3 0 "r" none
      (JobBoard.mk [Job.mk "a" 0 none none] [] WorkState.Off) =
      some (JobBoard.mk [] [SuspendedStack.mk [Job.mk "a" 0 none none] "r" 3 none none]
        WorkState.Off) := by
    rw [JobBoard.suspend_at, if_neg (by decide)]
    simp [JobBoard.add_suspended_stack, JobBoard.sort_suspended_stacks, List.mergeSort_singleton]
  have h := C4_suspend_resume_roundtrip 3 9 0 "r" none
    (JobBoard.mk [Job.mk "a" 0 none none] [] WorkState.Off)
    (JobBoard.mk [] [SuspendedStack.mk [Job.mk "a" 0 none none] "r" 3 none none] WorkState.Off)
    hb1
  refine ⟨h.1, ?_⟩
  obtain ⟨b2, hres, hact, _, _⟩ := h.2 0
    (SuspendedStack.mk [Job.mk "a" 0 none none] "r" 3 none none) rfl rfl
  exact ⟨b2, hres, by rw [hact]; rfl⟩

theorem boardInv_add (t : Int) (b0 : JobBoard) (s : SuspendedStack) (hne : s.data ≠ [])
    (hdata : ∀ s' ∈ b0.suspended_stacks, s'.data ≠ []) :
    BoardInv t (JobBoard.add_suspended_stack t s b0) := by
  constructor
  · exact sortedStacks_mergeSort t _
  · intro s' hs'
    have hmem : s' ∈ b0.suspended_stacks ++ [s] := by
      rw [← mem_mergeSort_stacks t]
      exact hs'
    rcases List.mem_append.mp hmem with h | h
    · exact hdata s' h
    · obtain rfl := List.mem_singleton.mp h
      exact hne

theorem boardInv_eraseIdx_resume (t now : Int) (b : JobBoard) (hInv : BoardInv t b)
    (index : Nat) (b' : JobBoard) (h : JobBoard.resume_at_index now index b = some b') :
    BoardInv t b' := by
  rw [JobBoard.resume_at_index] at h
  split at h
  case isTrue hk =>
    obtain rfl := Option.some.inj h
    exact ⟨List.Pairwise.sublist (List.eraseIdx_sublist b.suspended_stacks index) hInv.1,
      fun s hs => hInv.2 s ((List.eraseIdx_sublist b.suspended_stacks index).subset hs)⟩
  case isFalse => exact absurd h (by simp)

/-- C8: each board operation preserves the two invariants — the suspended
stacks stay sorted by effective timer ascending (at the operation's
instant), and every suspended stack's `data` stays non-empty (for
`add_suspended_stack`, provided the inserted stack itself is non-empty, as
every stack the program constructs is). -/
theorem C8_operations_preserve_invariants (t : Int) (b : JobBoard) (hInv : BoardInv t b) :
    (∀ j, BoardInv t (JobBoard.push j b)) ∧
    BoardInv t (JobBoard.pop b).2 ∧
    (∀ index reason timer b', JobBoard.suspend_at t index reason timer b = some b' →
      BoardInv t b') ∧
    (∀ pattern reason timer b', JobBoard.suspend_matching t pattern reason timer b = some b' →
      BoardInv t b') ∧
    (∀ s, s.data ≠ [] → BoardInv t (JobBoard.add_suspended_stack t s b)) ∧
    (∀ index b', JobBoard.resume_at_index t index b = some b' → BoardInv t b') ∧
    (∀ pattern b', JobBoard.resume_matching t pattern b = some b' → BoardInv t b') := by
  obtain ⟨hSorted, hData⟩ := hInv
  have hSuspendAt : ∀ index reason timer b',
      JobBoard.suspend_at t index reason timer b = some b' → BoardInv t b' := by
    intro index reason timer b' h
    rw [JobBoard.suspend_at] at h
    split at h
    case isTrue => exact absurd h (by simp)
    case isFalse hge =>
      obtain rfl := Option.some.inj h
      refine boardInv_add t _ _ ?_ hData
      intro hnil
      have := congrArg List.length hnil
      simp only [List.length_drop, List.length_nil] at this
      omega
  have hResume : ∀ index b', JobBoard.resume_at_index t index b = some b' → BoardInv t b' :=
    fun index b' h => boardInv_eraseIdx_resume t t b ⟨hSorted, hData⟩ index b' h
  refine ⟨fun j => ⟨hSorted, hData⟩, ⟨hSorted, hData⟩, hSuspendAt, ?_, ?_, hResume, ?_⟩
  · intro pattern reason timer b' h
    rw [JobBoard.suspend_matching] at h
    cases hf : JobBoard.find_job b pattern with
    | none => rw [hf] at h; exact absurd h (by simp)
    | some p =>
      obtain ⟨idx, job⟩ := p
      rw [hf] at h
      exact hSuspendAt idx reason timer b' h
  · intro s hne
    exact boardInv_add t b s hne hData
  · intro pattern b' h
    simp only [JobBoard.resume_matching] at h
    exact hResume _ b' h

/-- Witness for C8: the invariants hold on a concrete two-stack sorted
board and are preserved by a push. -/
theorem C8_witness :
    BoardInv 5
      (JobBoard.push (Job.mk "new" 5 none none)
        (JobBoard.mk []
          [SuspendedStack.mk [Job.mk "x" 0 none none] "r1" 0 (some 1) none,
           SuspendedStack.mk [Job.mk "y" 0 none none] "r2" 0 (some 9) none]
          WorkState.Off)) := by
  refine (C8_operations_preserve_invariants 5
    (JobBoard.mk []
      [SuspendedStack.mk [Job.mk "x" 0 none none] "r1" 0 (some 1) none,
       SuspendedStack.mk [Job.mk "y" 0 none none] "r2" 0 (some 9) none]
      WorkState.Off) ?_).1 (Job.mk "new" 5 none none)
  constructor
  · simp only [SortedStacks]
    decide
  · intro s hs
    fin_cases hs <;> simp
